import Mathlib

/-!
Verification of the deterministic core of the LLM data-cleaning tool
(`app.py`): the profiling summary, the baseline null/duplicate checker,
the seeded sampler, the generation client's failure normalization, and
the four-step cleaning pass (strip, numeric coercion, date coercion,
duplicate removal).

The pandas `DataFrame` is embedded as a `Dataset`: an ordered list of
columns, each with a name, a declared dtype and a list of cell values,
together with a row count.  Library calls (`pd.to_numeric`,
`pd.to_datetime`, `str.strip`, `drop_duplicates`, `df.sample`) are
embedded as executable Lean functions modelling their semantics on the
scalar value universe of the data model.
-/

set_option maxRecDepth 8000

namespace LlmClean

/-- Storage dtype of a column, mirroring the pandas dtypes that occur in
the tool: `int64`, `float64`, `object` (text) and `datetime64[ns]`. -/
inductive Dtype where
  | intT
  | floatT
  | objectT
  | dateT
deriving DecidableEq

/-- A scalar cell value.  `null` stands for a missing value (pandas
`NaN` / `NaT`); `float` is modelled by an exact rational; `date` carries
an encoded calendar timestamp; `unhashable` models a non-scalar Python
object (e.g. a list) whose hashing fails, used only to exercise the
profiler's distinct-count fallback. -/
inductive Value where
  | int (n : Int)
  | float (q : ℚ)
  | str (s : String)
  | date (d : Nat)
  | null
  | unhashable (tag : Nat)
deriving DecidableEq

/-- Whitespace characters stripped by Python's `str.strip()`. -/
def isPySpace (c : Char) : Bool :=
  c = ' ' ∨ c = '\t' ∨ c = '\n' ∨ c = '\r' ∨ c = '\x0b' ∨ c = '\x0c'

/-- Remove leading whitespace from a character list. -/
def trimLeft (l : List Char) : List Char := l.dropWhile isPySpace

/-- Remove trailing whitespace from a character list. -/
def trimRight (l : List Char) : List Char := (l.reverse.dropWhile isPySpace).reverse

/-- Python `str.strip()`: remove leading and trailing whitespace. -/
def pyStrip (s : String) : String := ⟨trimRight (trimLeft s.data)⟩

/-- Python `str(value)` as applied by `Series.astype(str)` elementwise.
A missing value (`NaN`) renders as the literal string `"nan"`.  The
renderings of floats, timestamps and non-scalar objects are fixed model
choices; no theorem below depends on them. -/
def pyStr : Value → String
  | .str s => s
  | .null => "nan"
  | .int n => toString n
  | .float q => if q.den = 1 then toString q.num ++ ".0" else toString q.num ++ "e" ++ toString q.den
  | .date d => "date-" ++ toString d
  | .unhashable t => "obj-" ++ toString t

/-- Numeric value of a decimal digit string. -/
def digitsToNat (ds : List Char) : Nat := ds.foldl (fun a c => a * 10 + (c.toNat - 48)) 0

/-- Model of the string parser inside `pd.to_numeric`: surrounding
whitespace is ignored, the spellings "nan"/"NaN"/"NAN" denote `NaN`, an
optional sign followed by decimal digits denotes an integer, and a
decimal point produces a float.  Anything else (letters, currency signs,
thousands separators, date separators) fails. -/
def parseNumStr (s : String) : Option Value :=
  let t := pyStrip s
  if t = "nan" ∨ t = "NaN" ∨ t = "NAN" then some Value.null
  else
    let l := t.data
    let sign : Bool := match l with
      | '-' :: _ => true
      | _ => false
    let l2 := match l with
      | '-' :: rest => rest
      | '+' :: rest => rest
      | _ => l
    let ip := l2.takeWhile Char.isDigit
    let rest := l2.dropWhile Char.isDigit
    match rest with
    | [] =>
      if ip.isEmpty then none
      else
        let n : Int := Int.ofNat (digitsToNat ip)
        some (Value.int (if sign then -n else n))
    | '.' :: rest2 =>
      let fp := rest2.takeWhile Char.isDigit
      let rest3 := rest2.dropWhile Char.isDigit
      if rest3.isEmpty ∧ (¬ ip.isEmpty ∨ ¬ fp.isEmpty) then
        let q : ℚ := (digitsToNat ip : ℚ) + (digitsToNat fp : ℚ) / ((10 : ℚ) ^ fp.length)
        some (Value.float (if sign then -q else q))
      else none
    | _ => none

/-- Per-value numeric reinterpretation attempted by `pd.to_numeric` on
an `object` column: numbers pass through, `NaN` stays `NaN`, strings go
through the numeric string parser, and timestamps or non-scalar objects
make the call raise (modelled as `none`). -/
def parseNum : Value → Option Value
  | .int n => some (.int n)
  | .float q => some (.float q)
  | .null => some .null
  | .str s => parseNumStr s
  | .date _ => none
  | .unhashable _ => none

/-- Model of the string parser inside `pd.to_datetime`: the empty string
and the `NaN`/`NaT` spellings denote `NaT`; an ISO-style `YYYY-MM-DD` or
`YYYY/MM/DD` date with a plausible month and day parses to a timestamp;
anything else fails.  (The real parser accepts more formats; every
theorem below only needs that plain text such as `"Alice"` or `"$10.00"`
fails and that ISO dates and `"nan"` succeed.) -/
def parseDateStr (s : String) : Option Value :=
  let t := pyStrip s
  if t = "" ∨ t = "nan" ∨ t = "NaN" ∨ t = "NAN" ∨ t = "NaT" ∨ t = "nat" ∨ t = "NAT" then
    some Value.null
  else
    match t.data with
    | [y1, y2, y3, y4, a, m1, m2, b, d1, d2] =>
      if ([y1, y2, y3, y4, m1, m2, d1, d2].all Char.isDigit) ∧
          ((a = '-' ∧ b = '-') ∨ (a = '/' ∧ b = '/')) then
        let y := digitsToNat [y1, y2, y3, y4]
        let m := digitsToNat [m1, m2]
        let d := digitsToNat [d1, d2]
        if 1 ≤ m ∧ m ≤ 12 ∧ 1 ≤ d ∧ d ≤ 31 then
          some (Value.date (y * 10000 + m * 100 + d))
        else none
      else none
    | _ => none

/-- Per-value date reinterpretation attempted by `pd.to_datetime` on an
`object` column (which, at the point it is called in the cleaning pass,
holds only strings and missing values). -/
def parseDate : Value → Option Value
  | .str s => parseDateStr s
  | .null => some .null
  | _ => none

/-- Attempt a per-value conversion on a whole column: `some` with all
converted values when every value converts, `none` as soon as one value
fails.  This is the all-or-nothing behaviour of `pd.to_numeric` /
`pd.to_datetime` on a series, whose exception aborts the whole column. -/
def parseAll (f : Value → Option Value) : List Value → Option (List Value)
  | [] => some []
  | v :: vs =>
    match f v, parseAll f vs with
    | some w, some ws => some (w :: ws)
    | _, _ => none

/-- True for an integer value (used to decide `int64` vs `float64`). -/
def isIntVal : Value → Bool
  | .int _ => true
  | _ => false

/-- Dtype produced by a successful `pd.to_numeric` on an object column:
`int64` when every parsed value is an integer (and there is at least
one), `float64` otherwise (floats or `NaN` present, or empty column). -/
def outDtype (ws : List Value) : Dtype :=
  if ws.all isIntVal ∧ ¬ ws.isEmpty then .intT else .floatT

/-- A dataframe column: a name, a storage dtype and the cell values. -/
structure Column where
  name : String
  dtype : Dtype
  values : List Value
deriving DecidableEq

/-- A dataframe: a row count and an ordered list of columns.  In a
well-formed dataframe every column has exactly `nrows` values. -/
structure Dataset where
  nrows : Nat
  cols : List Column
deriving DecidableEq

/-- Well-formedness: every column holds exactly `nrows` values. -/
def Dataset.WF (D : Dataset) : Prop :=
  ∀ c ∈ D.cols, c.values.length = D.nrows

instance (D : Dataset) : Decidable D.WF :=
  inferInstanceAs (Decidable (∀ c ∈ D.cols, c.values.length = D.nrows))

/-- True on a non-scalar (unhashable) object value. -/
def isUnhashable : Value → Bool
  | .unhashable _ => true
  | _ => false

/-- Scalar datasets: no cell holds a non-scalar (unhashable) object.
This is the invariant of the data model (values are scalars); on data
outside it pandas `duplicated`/`drop_duplicates` would raise. -/
def Dataset.Scalar (D : Dataset) : Prop :=
  ∀ c ∈ D.cols, ∀ v ∈ c.values, isUnhashable v = false

instance (D : Dataset) : Decidable D.Scalar :=
  inferInstanceAs (Decidable (∀ c ∈ D.cols, ∀ v ∈ c.values, isUnhashable v = false))

/-- Row `i` of the dataframe, as the list of the columns' `i`-th values. -/
def rowAt (D : Dataset) (i : Nat) : List Value :=
  D.cols.map fun c => c.values.getD i .null

/-- The rows of the dataframe, in order. -/
def rowsOf (D : Dataset) : List (List Value) :=
  (List.range D.nrows).map (rowAt D)

/-- Look up a column by name. -/
def getCol (D : Dataset) (name : String) : Option Column :=
  D.cols.find? fun c => c.name = name

/-- Elementwise strip applied by `cleaned[col].astype(str).str.strip()`:
every value is first rendered to its string form, then stripped. -/
def stripVal (v : Value) : Value := .str (pyStrip (pyStr v))

/-- Step 1 of the cleaning pass on one column: object (text) columns are
re-rendered to strings and stripped; other dtypes are not selected by
`select_dtypes(include=["object"])` and stay untouched. -/
def stripCol (c : Column) : Column :=
  if c.dtype = .objectT then { c with values := c.values.map stripVal } else c

/-- Days since 1970-01-01 of a civil date (Hinnant's algorithm).  For
the four-digit years produced by the date parser every division operand
is non-negative, so truncated and floor division agree. -/
def daysFromCivil (y : Int) (m d : Nat) : Int :=
  let y2 : Int := if m ≤ 2 then y - 1 else y
  let era : Int := (if 0 ≤ y2 then y2 else y2 - 399) / 400
  let yoe : Int := y2 - era * 400
  let doy : Int := (153 * (if 2 < m then (m : Int) - 3 else (m : Int) + 9) + 2) / 5 + (d : Int) - 1
  let doe : Int := yoe * 365 + yoe / 4 - yoe / 100 + doy
  era * 146097 + doe - 719468

/-- Nanoseconds since the epoch of an encoded midnight timestamp
(the date parser only produces midnight timestamps). -/
def epochNs (enc : Nat) : Int :=
  daysFromCivil (enc / 10000) (enc / 100 % 100) (enc % 100) * 86400000000000

/-- The int64 sentinel pandas stores for `NaT` (`iNaT`, the minimal
64-bit integer), which `.view('i8')` exposes. -/
def iNaT : Int := -9223372036854775808

/-- The int64 view of one datetime cell taken by `pd.to_numeric` on a
datetime64 column: a timestamp becomes its epoch-nanosecond count and
`NaT` becomes the `iNaT` sentinel. -/
def dateToInt : Value → Value
  | .date d => .int (epochNs d)
  | .null => .int iNaT
  | v => v

/-- Step 2 of the cleaning pass on one column: `pd.to_numeric` inside
`try/except`.  Numeric columns pass through unchanged; datetime columns
are converted to int64 epoch-nanoseconds — in the pandas 1.x–2.x line
this code targets, `to_numeric` takes the `.view('i8')` of a datetime64
series (since 2.0 with only a `FutureWarning`, so the bare `except`
never fires; raising is enforced only in pandas 3); object columns are
converted in an all-or-nothing way. -/
def numericCol (c : Column) : Column :=
  match c.dtype with
  | .intT => c
  | .floatT => c
  | .dateT => { c with dtype := .intT, values := c.values.map dateToInt }
  | .objectT =>
    match parseAll parseNum c.values with
    | some ws => { c with dtype := outDtype ws, values := ws }
    | none => c

/-- Step 3 of the cleaning pass on one column: `pd.to_datetime` inside
`try/except`, attempted only on columns still of object dtype. -/
def dateCol (c : Column) : Column :=
  if c.dtype = .objectT then
    match parseAll parseDate c.values with
    | some ws => { c with dtype := .dateT, values := ws }
    | none => c
  else c

/-- Apply step 1 to every column. -/
def stripStep (D : Dataset) : Dataset := { D with cols := D.cols.map stripCol }

/-- Apply step 2 to every column. -/
def numericStep (D : Dataset) : Dataset := { D with cols := D.cols.map numericCol }

/-- Apply step 3 to every column. -/
def dateStep (D : Dataset) : Dataset := { D with cols := D.cols.map dateCol }

/-- Keep-first duplicate removal on a list, carrying the set of already
seen elements; this is `DataFrame.drop_duplicates()` on the row list. -/
def dropDupAux [DecidableEq α] : List α → List α → List α
  | _, [] => []
  | seen, a :: l =>
    if a ∈ seen then dropDupAux seen l else a :: dropDupAux (a :: seen) l

/-- Remove exact duplicates, keeping the first occurrence of each
element and preserving the order of the rest. -/
def dropDuplicates [DecidableEq α] (l : List α) : List α := dropDupAux [] l

/-- Rebuild the column list from a deduplicated row list: column `j`
receives the `j`-th entry of every kept row. -/
def rebuildCols : List Column → Nat → List (List Value) → List Column
  | [], _, _ => []
  | c :: cs, j, rows =>
    { c with values := rows.map fun r => r.getD j .null } :: rebuildCols cs (j + 1) rows

/-- Step 4 of the cleaning pass: `cleaned.drop_duplicates()` — drop the
rows that duplicate an earlier row, keeping the first occurrence. -/
def dedupStep (D : Dataset) : Dataset :=
  let rows := dropDuplicates (rowsOf D)
  { nrows := rows.length, cols := rebuildCols D.cols 0 rows }

/-- The deterministic cleaning transformation of `generate_cleaned_csv`:
strip text columns, coerce numeric columns, coerce date columns, then
drop exact duplicate rows. -/
def cleanCore (D : Dataset) : Dataset := dedupStep (dateStep (numericStep (stripStep D)))

/-- State of the cleaning function: the input dataframe `df` bound by
the caller, and the working copy `cleaned` created by `df.copy()`.  Each
statement of `generate_cleaned_csv` only rebinds or writes into
`cleaned`; the embedding makes that explicit. -/
structure CleanState where
  df : Dataset
  cleaned : Dataset

/-- The `cleaned = df.copy()` line: an independent copy of the input. -/
def cleanInit (df : Dataset) : CleanState := { df := df, cleaned := df }

/-- The whitespace-stripping loop, writing only into `cleaned`. -/
def stepStrip (st : CleanState) : CleanState := { st with cleaned := stripStep st.cleaned }

/-- The numeric-coercion loop, writing only into `cleaned`. -/
def stepNumeric (st : CleanState) : CleanState := { st with cleaned := numericStep st.cleaned }

/-- The date-coercion loop, writing only into `cleaned`. -/
def stepDate (st : CleanState) : CleanState := { st with cleaned := dateStep st.cleaned }

/-- The `cleaned = cleaned.drop_duplicates()` line. -/
def stepDedup (st : CleanState) : CleanState := { st with cleaned := dedupStep st.cleaned }

/-- The full statement sequence of the cleaning body. -/
def cleanRunState (df : Dataset) : CleanState :=
  stepDedup (stepDate (stepNumeric (stepStrip (cleanInit df))))

/-- Base name of the artifact: `os.path.splitext(name)[0]`, dropping the
extension after the last dot when one exists. -/
def splitextBase (s : String) : String :=
  if s.data.contains '.' then ⟨(s.data.reverse.dropWhile (fun c => c ≠ '.')).drop 1 |>.reverse⟩
  else s

/-- The `generate_cleaned_csv` entry point: with no previously analyzed
dataframe it returns no artifact (`None`); otherwise it cleans a copy
and materializes an artifact whose name is derived from the source file
base name (the unique temp-file infix added by `mkstemp` is abstracted
away) with the fixed `_cleaned.csv` suffix. -/
def generate_cleaned_csv (df : Option Dataset) (source_name : Option String) :
    Option (String × Dataset) :=
  match df with
  | none => none
  | some d =>
    let base := splitextBase (source_name.getD "cleaned.csv")
    some (base ++ "_cleaned.csv", cleanCore d)

/-- True when the dataframe contains a missing value anywhere
(`df.isnull().sum().sum() > 0`). -/
def hasNull (D : Dataset) : Bool :=
  D.cols.any fun c => c.values.any fun v => v = .null

/-- True when some row is an exact duplicate of an earlier row
(`df.duplicated().sum() > 0`). -/
def hasDupRows (D : Dataset) : Bool :=
  decide (¬ (rowsOf D).Nodup)

/-- The issue list assembled by the baseline checks. -/
def baselineIssues (D : Dataset) : List String :=
  (if hasNull D then ["Missing values found"] else []) ++
    (if hasDupRows D then ["Duplicate rows found"] else [])

/-- The baseline report line of `analyze_file`. -/
def baselineReport (D : Dataset) : String :=
  "Pandas baseline detected: " ++
    (if baselineIssues D ≠ [] then String.intercalate ", " (baselineIssues D)
     else "No major issues")

/-- The sample size `50 if len(df) >= 50 else len(df)`. -/
def sampleN (n : Nat) : Nat := if n ≥ 50 then 50 else n

/-- A linear congruential step standing in for the seeded pseudorandom
stream behind `df.sample(..., random_state=0)`.  The exact stream is a
model choice; the theorems below use only that it is a deterministic
function of the seed. -/
def lcg (s : Nat) : Nat := (s * 1103515245 + 12345) % 4294967296

/-- Fisher–Yates style selection: repeatedly pick a pseudorandom
position of the remaining pool and move that element to the output. -/
def fyAux : Nat → Nat → List Nat → List Nat
  | 0, _, _ => []
  | _ + 1, _, [] => []
  | fuel + 1, st, l =>
    let i := st % l.length
    l.getD i 0 :: fyAux fuel (lcg st) (l.eraseIdx i)

/-- A seed-0 pseudorandom permutation of the row indices `0..n-1`. -/
def samplePerm (n : Nat) : List Nat := fyAux n 0 (List.range n)

/-- The `k` row indices selected without replacement by the seeded
sampler. -/
def sampleIdx (n k : Nat) : List Nat := (samplePerm n).take k

/-- Select the rows at the given indices, preserving column names and
dtypes. -/
def selectRows (D : Dataset) (idxs : List Nat) : Dataset :=
  { nrows := idxs.length,
    cols := D.cols.map fun c => { c with values := idxs.map fun i => c.values.getD i .null } }

/-- The empty dataframe `df.head(0)`: same columns, no rows. -/
def headZero (D : Dataset) : Dataset :=
  { nrows := 0, cols := D.cols.map fun c => { c with values := [] } }

/-- The sampled view built by `analyze_file`:
`df.sample(n=sample_n, random_state=0) if sample_n > 0 else df.head(0)`. -/
def analyzeSample (D : Dataset) : Dataset :=
  if sampleN D.nrows > 0 then selectRows D (sampleIdx D.nrows (sampleN D.nrows))
  else headZero D

/-- The dtype name rendered by `str(series.dtype)`. -/
def dtypeName : Dtype → String
  | .intT => "int64"
  | .floatT => "float64"
  | .objectT => "object"
  | .dateT => "datetime64[ns]"

/-- Number of non-null values of the column (`series.notna().sum()`). -/
def nonNullCount (c : Column) : Nat := (c.values.filter fun v => v ≠ .null).length

/-- Number of null values of the column (`series.isna().sum()`). -/
def nullCount (c : Column) : Nat := (c.values.filter fun v => v = .null).length

/-- The attempted exact distinct count `series.nunique(dropna=True)`:
it hashes the values, so it raises (modelled as `none`) when the column
holds an unhashable object, and otherwise counts the distinct non-null
values. -/
def nuniqueE (c : Column) : Option Nat :=
  if c.values.any isUnhashable then none
  else some ((c.values.filter fun v => v ≠ .null).dedup.length)

/-- The `unique` field of the summary line: the exact count when the
count succeeds, and the integer sentinel `-1` when it raises. -/
def uniqueCountOf (c : Column) : Int :=
  match nuniqueE c with
  | some k => (k : Int)
  | none => -1

/-- Up to three example non-null values in row order, stringified;
`"(none)"` when there are none. -/
def examplesPreview (c : Column) : String :=
  let ex := ((c.values.filter fun v => v ≠ .null).map pyStr).take 3
  if ex.isEmpty then "(none)" else String.intercalate ", " ex

/-- True on the dtypes pandas reports as numeric. -/
def isNumericDtype : Dtype → Bool
  | .intT => true
  | .floatT => true
  | _ => false

/-- Rational view of a numeric value, used for min/max. -/
def qOf : Value → Option ℚ
  | .int n => some (n : ℚ)
  | .float q => some q
  | _ => none

/-- The numeric minimum or maximum of a column (`series.min()` /
`series.max()` skip missing values and return `NaN` on an all-null or
empty column). -/
def minMaxOf (useMin : Bool) (c : Column) : Value :=
  let nums := c.values.filterMap fun v => (qOf v).map fun q => (q, v)
  match nums with
  | [] => .null
  | p :: ps =>
    (ps.foldl (fun best q => if (useMin ∧ q.1 < best.1) ∨ (¬ useMin ∧ best.1 < q.1) then q else best) p).2

/-- The `min=..., max=...` fragment appended for numeric columns. -/
def numericStats (c : Column) : String :=
  if isNumericDtype c.dtype then
    ", min=" ++ pyStr (minMaxOf true c) ++ ", max=" ++ pyStr (minMaxOf false c)
  else ""

/-- The per-column line of `_build_dataset_summary`.  The `unique=`
fragment is grouped as one append operand; the rendered string is
exactly the source's f-string. -/
def colLine (c : Column) : String :=
  "- " ++ c.name ++ " | dtype=" ++ dtypeName c.dtype ++
    ", non_null=" ++ toString (nonNullCount c) ++
    ", nulls=" ++ toString (nullCount c) ++
    ", " ++ ("unique=" ++ toString (uniqueCountOf c)) ++
    numericStats c ++ "; examples: " ++ examplesPreview c

/-- All lines of the dataset summary: the global row/column count line
followed by one line per column. -/
def summaryLines (D : Dataset) : List String :=
  ("Rows: " ++ toString D.nrows ++ ", Columns: " ++ toString D.cols.length) ::
    D.cols.map colLine

/-- The full text of `_build_dataset_summary`. -/
def build_dataset_summary (D : Dataset) : String :=
  String.intercalate "\n" (summaryLines D)

/-- Outcome of the `subprocess.run(["ollama", "run", model], ...)` call:
the binary may be missing, the timeout may fire, or the process finishes
with a return code and captured output channels. -/
inductive RunOutcome where
  | fileNotFound
  | timedOut
  | finished (returncode : Int) (stdout stderr : String)

/-- The generation client `query_ollama`: every failure mode of the
subprocess call is normalized into a returned string, never an
exception. -/
def query_ollama (_prompt model : String) (timeout_seconds : Nat) (outcome : RunOutcome) :
    String :=
  match outcome with
  | .fileNotFound =>
    "ERROR: 'ollama' CLI not found. Install from https://ollama.com and ensure it is on PATH."
  | .timedOut =>
    "ERROR: LLM call timed out after " ++ toString timeout_seconds ++ "s" ++
      ". Consider pulling the model first with 'ollama pull " ++ model ++ "'."
  | .finished rc out err =>
    let stdout := pyStrip out
    let stderr := pyStrip err
    if rc ≠ 0 then
      "ERROR: ollama run failed (code " ++ toString rc ++ "). Details: " ++
        (if stderr = "" then "No error details" else stderr)
    else if stdout ≠ "" then stdout
    else if stderr ≠ "" then stderr
    else "No response from model."

/-- Substring containment, used to state that a result string mentions
a given fragment. -/
def ContainsStr (hay needle : String) : Prop := needle.data <:+: hay.data

instance (hay needle : String) : Decidable (ContainsStr hay needle) :=
  inferInstanceAs (Decidable (needle.data <:+: hay.data))

/-- The two-row example dataframe of the end-to-end test case:
`[{id:1, name:" Alice ", amount:"$10.00"}] * 2`. -/
def exampleDf : Dataset :=
  { nrows := 2,
    cols :=
      [ { name := "id", dtype := .intT, values := [.int 1, .int 1] },
        { name := "name", dtype := .objectT, values := [.str " Alice ", .str " Alice "] },
        { name := "amount", dtype := .objectT, values := [.str "$10.00", .str "$10.00"] } ] }

/-! Generic lemmas about the keep-first duplicate removal. -/

theorem mem_dropDupAux [DecidableEq α] (seen l : List α) (a : α) :
    a ∈ dropDupAux seen l ↔ a ∈ l ∧ a ∉ seen := by
  induction l generalizing seen with
  | nil => simp [dropDupAux]
  | cons b t ih =>
    by_cases hb : b ∈ seen
    · rw [dropDupAux, if_pos hb, ih]
      constructor
      · rintro ⟨h1, h2⟩
        exact ⟨List.mem_cons_of_mem b h1, h2⟩
      · rintro ⟨h1, h2⟩
        rcases List.mem_cons.mp h1 with rfl | h1
        · exact absurd hb h2
        · exact ⟨h1, h2⟩
    · rw [dropDupAux, if_neg hb]
      constructor
      · intro h
        rcases List.mem_cons.mp h with rfl | h
        · exact ⟨List.mem_cons_self a t, hb⟩
        · obtain ⟨h1, h2⟩ := (ih (b :: seen)).mp h
          exact ⟨List.mem_cons_of_mem b h1,
            fun hs => h2 (List.mem_cons_of_mem b hs)⟩
      · rintro ⟨h1, h2⟩
        by_cases hab : a = b
        · exact hab ▸ List.mem_cons_self b _
        · rcases List.mem_cons.mp h1 with rfl | h1
          · exact absurd rfl hab
          · refine List.mem_cons_of_mem b ((ih (b :: seen)).mpr ⟨h1, ?_⟩)
            intro hs
            rcases List.mem_cons.mp hs with rfl | hs
            · exact hab rfl
            · exact h2 hs

theorem dropDupAux_sublist [DecidableEq α] (seen l : List α) :
    List.Sublist (dropDupAux seen l) l := by
  induction l generalizing seen with
  | nil => exact List.Sublist.refl []
  | cons b t ih =>
    by_cases hb : b ∈ seen
    · rw [dropDupAux, if_pos hb]
      exact (ih seen).trans (List.sublist_cons_self b t)
    · rw [dropDupAux, if_neg hb]
      exact (ih (b :: seen)).cons₂ b

theorem nodup_dropDupAux [DecidableEq α] (seen l : List α) :
    (dropDupAux seen l).Nodup := by
  induction l generalizing seen with
  | nil => exact List.nodup_nil
  | cons b t ih =>
    by_cases hb : b ∈ seen
    · rw [dropDupAux, if_pos hb]; exact ih seen
    · rw [dropDupAux, if_neg hb]
      refine List.nodup_cons.mpr ⟨fun hmem => ?_, ih (b :: seen)⟩
      exact ((mem_dropDupAux _ _ _).mp hmem).2 (List.mem_cons_self b seen)

theorem dropDupAux_congr [DecidableEq α] (s₁ s₂ l : List α)
    (h : ∀ x, x ∈ s₁ ↔ x ∈ s₂) : dropDupAux s₁ l = dropDupAux s₂ l := by
  induction l generalizing s₁ s₂ with
  | nil => rfl
  | cons b t ih =>
    by_cases hb : b ∈ s₁
    · rw [dropDupAux, dropDupAux, if_pos hb, if_pos ((h b).mp hb)]
      exact ih s₁ s₂ h
    · rw [dropDupAux, dropDupAux, if_neg hb, if_neg (fun hc => hb ((h b).mpr hc))]
      refine congrArg (b :: ·) (ih _ _ fun x => ?_)
      simp only [List.mem_cons, h x]

theorem dropDupAux_cons_eq_filter [DecidableEq α] (a : α) (seen l : List α) :
    dropDupAux (a :: seen) l = dropDupAux seen (l.filter fun x => x ≠ a) := by
  induction l generalizing seen with
  | nil => rfl
  | cons b t ih =>
    by_cases hba : b = a
    · subst hba
      rw [dropDupAux, if_pos (List.mem_cons_self b seen)]
      have hfil : (b :: t).filter (fun x => x ≠ b) = t.filter fun x => x ≠ b := by
        simp [List.filter_cons]
      rw [hfil, ih]
    · have hfil : (b :: t).filter (fun x => x ≠ a) = b :: t.filter fun x => x ≠ a := by
        simp [List.filter_cons, hba]
      by_cases hb : b ∈ seen
      · rw [dropDupAux, if_pos (List.mem_cons_of_mem a hb), hfil, dropDupAux, if_pos hb, ih]
      · have hb2 : b ∉ a :: seen := by
          simp only [List.mem_cons, not_or]
          exact ⟨hba, hb⟩
        rw [dropDupAux, if_neg hb2, hfil, dropDupAux, if_neg hb]
        refine congrArg (b :: ·) ?_
        rw [dropDupAux_congr (b :: a :: seen) (a :: b :: seen) t fun x => by
          simp only [List.mem_cons]; tauto]
        exact ih (b :: seen)

theorem dropDupAux_eq_self [DecidableEq α] (seen l : List α) (hd : l.Nodup)
    (hdisj : ∀ a ∈ l, a ∉ seen) : dropDupAux seen l = l := by
  induction l generalizing seen with
  | nil => rfl
  | cons b t ih =>
    rw [dropDupAux, if_neg (hdisj b (List.mem_cons_self b t))]
    refine congrArg (b :: ·) (ih (b :: seen) (List.nodup_cons.mp hd).2 fun a ha => ?_)
    simp only [List.mem_cons, not_or]
    exact ⟨fun hab => (List.nodup_cons.mp hd).1 (hab ▸ ha),
      hdisj a (List.mem_cons_of_mem b ha)⟩

theorem mem_dropDuplicates [DecidableEq α] (l : List α) (a : α) :
    a ∈ dropDuplicates l ↔ a ∈ l := by
  rw [dropDuplicates, mem_dropDupAux]
  simp

theorem dropDuplicates_sublist [DecidableEq α] (l : List α) :
    List.Sublist (dropDuplicates l) l := dropDupAux_sublist [] l

theorem nodup_dropDuplicates [DecidableEq α] (l : List α) :
    (dropDuplicates l).Nodup := nodup_dropDupAux [] l

theorem dropDuplicates_cons [DecidableEq α] (a : α) (l : List α) :
    dropDuplicates (a :: l) = a :: dropDuplicates (l.filter fun x => x ≠ a) := by
  rw [dropDuplicates, dropDupAux, if_neg (List.not_mem_nil a), dropDupAux_cons_eq_filter]
  rfl

theorem dropDuplicates_of_nodup [DecidableEq α] (l : List α) (h : l.Nodup) :
    dropDuplicates l = l :=
  dropDupAux_eq_self [] l h fun a _ => List.not_mem_nil a

theorem length_dropDuplicates_le [DecidableEq α] (l : List α) :
    (dropDuplicates l).length ≤ l.length := (dropDuplicates_sublist l).length_le

/-! Generic lemmas about the all-or-nothing column conversion. -/

theorem parseAll_length (f : Value → Option Value) :
    ∀ vs ws, parseAll f vs = some ws → ws.length = vs.length := by
  intro vs
  induction vs with
  | nil => intro ws h; simp [parseAll] at h; simp [← h]
  | cons v t ih =>
    intro ws h
    cases hfv : f v with
    | none => rw [parseAll, hfv] at h; exact absurd h (by simp)
    | some w =>
      cases hrec : parseAll f t with
      | none => rw [parseAll, hfv, hrec] at h; exact absurd h (by simp)
      | some ws0 =>
        rw [parseAll, hfv, hrec] at h
        cases h
        simp [ih ws0 hrec]

theorem parseAll_eq_none_iff (f : Value → Option Value) (vs : List Value) :
    parseAll f vs = none ↔ ∃ v ∈ vs, f v = none := by
  induction vs with
  | nil => simp [parseAll]
  | cons v t ih =>
    cases hfv : f v with
    | none =>
      rw [parseAll, hfv]
      simp only [List.mem_cons]
      exact ⟨fun _ => ⟨v, Or.inl rfl, hfv⟩, fun _ => trivial⟩
    | some w =>
      cases hrec : parseAll f t with
      | none =>
        rw [parseAll, hfv, hrec]
        obtain ⟨u, hu, hfu⟩ := ih.mp hrec
        exact ⟨fun _ => ⟨u, List.mem_cons_of_mem v hu, hfu⟩, fun _ => rfl⟩
      | some ws0 =>
        rw [parseAll, hfv, hrec]
        simp only [List.mem_cons]
        constructor
        · intro h; exact absurd h (by simp)
        · rintro ⟨u, rfl | hu, hfu⟩
          · exact absurd hfv (hfu ▸ by simp)
          · exact absurd hrec (ih.mpr ⟨u, hu, hfu⟩ ▸ by simp)

theorem parseAll_isSome (f : Value → Option Value) (vs : List Value)
    (h : ∀ v ∈ vs, (f v).isSome) : ∃ ws, parseAll f vs = some ws := by
  cases hp : parseAll f vs with
  | none =>
    obtain ⟨v, hv, hfv⟩ := (parseAll_eq_none_iff f vs).mp hp
    have := h v hv
    rw [hfv] at this
    exact absurd this (by simp)
  | some ws => exact ⟨ws, rfl⟩

/-! Idempotence of the whitespace strip. -/

theorem dropWhile_dropWhile (p : α → Bool) (l : List α) :
    (l.dropWhile p).dropWhile p = l.dropWhile p := by
  cases h : l.dropWhile p with
  | nil => rfl
  | cons a t =>
    have hpa : ¬ p a := by
      have := List.head?_dropWhile_not p l
      rw [h] at this
      simpa using this
    simp [List.dropWhile_cons, hpa]

theorem trimLeft_trimLeft (l : List Char) : trimLeft (trimLeft l) = trimLeft l :=
  dropWhile_dropWhile isPySpace l

theorem trimRight_trimRight (l : List Char) : trimRight (trimRight l) = trimRight l := by
  rw [trimRight, trimRight, List.reverse_reverse, dropWhile_dropWhile]

theorem trimRight_prefix_of_self (l : List Char) : List.IsPrefix (trimRight l) l := by
  have h : List.IsSuffix (l.reverse.dropWhile isPySpace) l.reverse :=
    List.dropWhile_suffix isPySpace
  obtain ⟨t, ht⟩ := h
  refine ⟨t.reverse, ?_⟩
  have := congrArg List.reverse ht
  rw [List.reverse_append, List.reverse_reverse] at this
  rw [trimRight, this]

theorem trimLeft_trimRight_of_fixed (l : List Char) (h : trimLeft l = l) :
    trimLeft (trimRight l) = trimRight l := by
  cases hl : trimRight l with
  | nil => rfl
  | cons a t =>
    cases l with
    | nil =>
      rw [trimRight] at hl
      simp at hl
    | cons b s =>
      have hpb : ¬ isPySpace b := by
        intro hpb
        rw [trimLeft, List.dropWhile_cons, if_pos hpb] at h
        have hlen := congrArg List.length h
        have := (List.dropWhile_suffix (l := s) isPySpace).sublist.length_le
        simp at hlen
        omega
      have hab : a = b := by
        obtain ⟨u, hu⟩ := trimRight_prefix_of_self (b :: s)
        rw [hl] at hu
        exact (List.cons_eq_cons.mp hu).1
      rw [trimLeft, List.dropWhile_cons, if_neg (hab ▸ hpb)]

theorem pyStrip_idem (s : String) : pyStrip (pyStrip s) = pyStrip s := by
  have h1 : trimLeft (trimLeft s.data) = trimLeft s.data := trimLeft_trimLeft s.data
  show String.mk (trimRight (trimLeft (trimRight (trimLeft s.data)))) =
    String.mk (trimRight (trimLeft s.data))
  rw [trimLeft_trimRight_of_fixed (trimLeft s.data) h1, trimRight_trimRight]

/-! Structural lemmas about rows, columns and the dedup step. -/

theorem length_rowsOf (D : Dataset) : (rowsOf D).length = D.nrows := by
  simp [rowsOf]

theorem rowsOf_getElem? (D : Dataset) (i : Nat) (h : i < D.nrows) :
    (rowsOf D)[i]? = some (rowAt D i) := by
  rw [rowsOf, List.getElem?_map]
  simp [List.getElem?_range, h]

theorem length_rowAt (D : Dataset) (i : Nat) : (rowAt D i).length = D.cols.length := by
  simp [rowAt]

theorem rowAt_getElem? (D : Dataset) (i j : Nat) :
    (rowAt D i)[j]? = (D.cols[j]?).map fun c => c.values.getD i .null := by
  rw [rowAt, List.getElem?_map]

theorem mem_rowsOf (D : Dataset) (r : List Value) (h : r ∈ rowsOf D) :
    ∃ i < D.nrows, r = rowAt D i := by
  rw [rowsOf] at h
  obtain ⟨i, hi, rfl⟩ := List.mem_map.mp h
  exact ⟨i, List.mem_range.mp hi, rfl⟩

theorem rowAt_mem_rowsOf (D : Dataset) (i : Nat) (h : i < D.nrows) :
    rowAt D i ∈ rowsOf D :=
  List.mem_map.mpr ⟨i, List.mem_range.mpr h, rfl⟩

theorem length_rebuildCols (cs : List Column) (j : Nat) (rows : List (List Value)) :
    (rebuildCols cs j rows).length = cs.length := by
  induction cs generalizing j with
  | nil => rfl
  | cons c cs ih => simp [rebuildCols, ih]

theorem rebuildCols_getElem? (cs : List Column) (rows : List (List Value)) :
    ∀ (j k : Nat), (rebuildCols cs j rows)[k]? =
      cs[k]?.map fun c : Column =>
        { c with values := rows.map fun r : List Value => r.getD (j + k) .null } := by
  induction cs with
  | nil => intro j k; simp [rebuildCols]
  | cons c cs ih =>
    intro j k
    cases k with
    | zero => simp [rebuildCols]
    | succ k =>
      rw [rebuildCols, List.getElem?_cons_succ, List.getElem?_cons_succ, ih (j + 1) k]
      have harith : j + 1 + k = j + (k + 1) := by omega
      rw [harith]

theorem dedupStep_nrows (D : Dataset) :
    (dedupStep D).nrows = (dropDuplicates (rowsOf D)).length := rfl

theorem dedupStep_cols_getElem? (D : Dataset) (j : Nat) :
    (dedupStep D).cols[j]? = D.cols[j]?.map fun c =>
      { c with values := (dropDuplicates (rowsOf D)).map fun r => r.getD j .null } := by
  show (rebuildCols D.cols 0 (dropDuplicates (rowsOf D)))[j]? = _
  rw [rebuildCols_getElem?]
  simp

theorem dedupStep_cols_length (D : Dataset) :
    (dedupStep D).cols.length = D.cols.length := length_rebuildCols D.cols 0 _

theorem wf_dedupStep (D : Dataset) : (dedupStep D).WF := by
  intro c hc
  obtain ⟨j, hj⟩ := List.get?_of_mem hc
  have hj2 : (dedupStep D).cols[j]? = some c := by simpa using hj
  rw [dedupStep_cols_getElem? D j] at hj2
  cases hcj : D.cols[j]? with
  | none => rw [hcj] at hj2; exact absurd hj2 (by simp)
  | some c0 =>
    rw [hcj] at hj2
    have hc0 : c = { c0 with values := (dropDuplicates (rowsOf D)).map fun r => r.getD j .null } := by
      cases hj2; rfl
    rw [hc0]
    simp [dedupStep_nrows]

/-- Rows of a dedup-rebuilt dataframe are exactly the deduplicated rows
of the input: the rebuild is the inverse transpose. -/
theorem rowsOf_dedupStep (D : Dataset) :
    rowsOf (dedupStep D) = dropDuplicates (rowsOf D) := by
  apply List.ext_getElem?
  intro i
  by_cases hi : i < (dropDuplicates (rowsOf D)).length
  · have hlen : i < (dedupStep D).nrows := by rw [dedupStep_nrows]; exact hi
    rw [rowsOf_getElem? (dedupStep D) i hlen, List.getElem?_eq_getElem hi]
    have hr : (dropDuplicates (rowsOf D))[i] ∈ dropDuplicates (rowsOf D) :=
      List.getElem_mem hi
    set r := (dropDuplicates (rowsOf D))[i] with hrdef
    have hrmem : r ∈ rowsOf D := (mem_dropDuplicates _ _).mp hr
    obtain ⟨i0, _, hri0⟩ := mem_rowsOf D r hrmem
    have hrlen : r.length = D.cols.length := by rw [hri0, length_rowAt]
    have hsome : (dropDuplicates (rowsOf D))[i]? = some r := by
      rw [List.getElem?_eq_getElem hi]
    congr 1
    apply List.ext_getElem?
    intro j
    rw [rowAt_getElem?, dedupStep_cols_getElem?]
    by_cases hj : j < D.cols.length
    · obtain ⟨c0, hc0⟩ : ∃ c0, D.cols[j]? = some c0 :=
        ⟨D.cols[j], List.getElem?_eq_getElem hj⟩
      rw [hc0]
      have hjr : j < r.length := by rw [hrlen]; exact hj
      show some (((dropDuplicates (rowsOf D)).map
        fun r0 : List Value => r0.getD j .null).getD i .null) = r[j]?
      rw [List.getElem?_eq_getElem hjr]
      congr 1
      rw [List.getD_eq_getElem?_getD, List.getElem?_map, hsome]
      show r.getD j .null = r[j]
      rw [List.getD_eq_getElem?_getD, List.getElem?_eq_getElem hjr]
      rfl
    · rw [List.getElem?_eq_none (by omega : D.cols.length ≤ j)]
      rw [List.getElem?_eq_none (by rw [hrlen]; omega : r.length ≤ j)]
      rfl
  · rw [List.getElem?_eq_none, List.getElem?_eq_none
      (by omega : (dropDuplicates (rowsOf D)).length ≤ i)]
    rw [length_rowsOf, dedupStep_nrows]
    omega

/-- Every value of a column survives into the corresponding column of
the dedup step (the first occurrence of its row is kept). -/
theorem mem_col_dedupStep (D : Dataset) (hwf : D.WF) (j : Nat) (c c' : Column)
    (hc : D.cols[j]? = some c) (hc' : (dedupStep D).cols[j]? = some c')
    (v : Value) (hv : v ∈ c.values) : v ∈ c'.values := by
  rw [dedupStep_cols_getElem?, hc] at hc'
  have hc'eq : c' = { c with values := (dropDuplicates (rowsOf D)).map fun r => r.getD j .null } := by
    cases hc'; rfl
  obtain ⟨i, hiv⟩ := List.get?_of_mem hv
  have hiv2 : c.values[i]? = some v := by simpa using hiv
  have hilen : i < c.values.length := by
    by_contra hcon
    rw [List.getElem?_eq_none (by omega : c.values.length ≤ i)] at hiv2
    exact absurd hiv2 (by simp)
  have hinr : i < D.nrows := by
    rw [← hwf c (List.getElem?_mem hc)]
    exact hilen
  have hrow : rowAt D i ∈ dropDuplicates (rowsOf D) :=
    (mem_dropDuplicates _ _).mpr (rowAt_mem_rowsOf D i hinr)
  have hentry : (rowAt D i).getD j .null = v := by
    rw [List.getD_eq_getElem?_getD, rowAt_getElem?, hc]
    simp [List.getD_eq_getElem?_getD, hiv2]
  rw [hc'eq]
  exact List.mem_map.mpr ⟨rowAt D i, hrow, hentry⟩

/-- Every value of a dedup-step column came from the corresponding input
column. -/
theorem col_dedupStep_subset (D : Dataset) (hwf : D.WF) (j : Nat) (c c' : Column)
    (hc : D.cols[j]? = some c) (hc' : (dedupStep D).cols[j]? = some c')
    (v : Value) (hv : v ∈ c'.values) : v ∈ c.values := by
  rw [dedupStep_cols_getElem?, hc] at hc'
  have hc'eq : c' = { c with values := (dropDuplicates (rowsOf D)).map fun r => r.getD j .null } := by
    cases hc'; rfl
  rw [hc'eq] at hv
  obtain ⟨r, hr, hrv⟩ := List.mem_map.mp hv
  have hrmem : r ∈ rowsOf D := (mem_dropDuplicates _ _).mp hr
  obtain ⟨i, hinr, rfl⟩ := mem_rowsOf D r hrmem
  have hjlt : j < D.cols.length := by
    by_contra hcon
    rw [List.getElem?_eq_none (by omega : D.cols.length ≤ j)] at hc
    exact absurd hc (by simp)
  have hentry : (rowAt D i).getD j .null = c.values.getD i .null := by
    rw [List.getD_eq_getElem?_getD, rowAt_getElem?, hc]
    rfl
  have hilen : i < c.values.length := by
    rw [hwf c (List.getElem?_mem hc)]
    exact hinr
  rw [← hrv, hentry, List.getD_eq_getElem?_getD, List.getElem?_eq_getElem hilen]
  exact List.getElem_mem hilen

/-- Values of a dedup-step column preserve name and dtype. -/
theorem dedupStep_name_dtype (D : Dataset) (j : Nat) (c c' : Column)
    (hc : D.cols[j]? = some c) (hc' : (dedupStep D).cols[j]? = some c') :
    c'.name = c.name ∧ c'.dtype = c.dtype := by
  rw [dedupStep_cols_getElem?, hc] at hc'
  cases hc'
  exact ⟨rfl, rfl⟩

/-! Characterization of the per-column cleaning steps. -/

theorem stripCol_of_ne_objectT (c : Column) (h : c.dtype ≠ .objectT) : stripCol c = c := by
  rw [stripCol, if_neg h]

theorem stripCol_objectT (c : Column) (h : c.dtype = .objectT) :
    stripCol c = { c with values := c.values.map stripVal } := by
  rw [stripCol, if_pos h]

theorem numericCol_of_ne_objectT (c : Column) (h1 : c.dtype ≠ .objectT)
    (h2 : c.dtype ≠ .dateT) : numericCol c = c := by
  obtain ⟨nm, dt, vs⟩ := c
  cases dt <;> first
    | rfl
    | exact absurd rfl h1
    | exact absurd rfl h2

theorem numericCol_dateT (c : Column) (h : c.dtype = .dateT) :
    numericCol c = { c with dtype := .intT, values := c.values.map dateToInt } := by
  obtain ⟨nm, dt, vs⟩ := c
  cases dt with
  | dateT => rfl
  | intT => exact Dtype.noConfusion h
  | floatT => exact Dtype.noConfusion h
  | objectT => exact Dtype.noConfusion h

theorem numericCol_objectT_none (c : Column) (h1 : c.dtype = .objectT)
    (h2 : parseAll parseNum c.values = none) : numericCol c = c := by
  obtain ⟨nm, dt, vs⟩ := c
  cases dt <;> simp_all [numericCol]

theorem numericCol_objectT_some (c : Column) (ws : List Value) (h1 : c.dtype = .objectT)
    (h2 : parseAll parseNum c.values = some ws) :
    numericCol c = { c with dtype := outDtype ws, values := ws } := by
  obtain ⟨nm, dt, vs⟩ := c
  cases dt <;> simp_all [numericCol]

theorem outDtype_ne_objectT (ws : List Value) : outDtype ws ≠ .objectT := by
  rw [outDtype]
  split <;> simp

theorem outDtype_numeric (ws : List Value) : isNumericDtype (outDtype ws) = true := by
  rw [outDtype]
  split <;> rfl

theorem numericCol_dtype_objectT (c : Column) (h : (numericCol c).dtype = .objectT) :
    numericCol c = c ∧ c.dtype = .objectT ∧ parseAll parseNum c.values = none := by
  by_cases hdt : c.dtype = .objectT
  · cases hp : parseAll parseNum c.values with
    | none => exact ⟨numericCol_objectT_none c hdt hp, hdt, rfl⟩
    | some ws =>
      rw [numericCol_objectT_some c ws hdt hp] at h
      exact absurd h (outDtype_ne_objectT ws)
  · by_cases hdd : c.dtype = .dateT
    · rw [numericCol_dateT c hdd] at h
      simp at h
    · rw [numericCol_of_ne_objectT c hdt hdd] at h
      exact absurd h hdt

theorem dateCol_of_ne_objectT (c : Column) (h : c.dtype ≠ .objectT) : dateCol c = c := by
  rw [dateCol, if_neg h]

theorem dateCol_objectT_none (c : Column) (h1 : c.dtype = .objectT)
    (h2 : parseAll parseDate c.values = none) : dateCol c = c := by
  rw [dateCol, if_pos h1, h2]

theorem dateCol_objectT_some (c : Column) (ws : List Value) (h1 : c.dtype = .objectT)
    (h2 : parseAll parseDate c.values = some ws) :
    dateCol c = { c with dtype := .dateT, values := ws } := by
  rw [dateCol, if_pos h1, h2]

theorem dateCol_dtype_objectT (c : Column) (h : (dateCol c).dtype = .objectT) :
    dateCol c = c ∧ c.dtype = .objectT ∧ parseAll parseDate c.values = none := by
  by_cases hdt : c.dtype = .objectT
  · cases hp : parseAll parseDate c.values with
    | none => exact ⟨dateCol_objectT_none c hdt hp, hdt, rfl⟩
    | some ws =>
      rw [dateCol_objectT_some c ws hdt hp] at h
      exact absurd h (by simp)
  · rw [dateCol_of_ne_objectT c hdt] at h
    exact absurd h hdt

theorem length_values_stripCol (c : Column) : (stripCol c).values.length = c.values.length := by
  by_cases h : c.dtype = .objectT
  · rw [stripCol_objectT c h]; simp
  · rw [stripCol_of_ne_objectT c h]

theorem length_values_numericCol (c : Column) :
    (numericCol c).values.length = c.values.length := by
  by_cases h : c.dtype = .objectT
  · cases hp : parseAll parseNum c.values with
    | none => rw [numericCol_objectT_none c h hp]
    | some ws =>
      rw [numericCol_objectT_some c ws h hp]
      exact parseAll_length parseNum c.values ws hp
  · by_cases hd : c.dtype = .dateT
    · rw [numericCol_dateT c hd]
      simp
    · rw [numericCol_of_ne_objectT c h hd]

theorem length_values_dateCol (c : Column) : (dateCol c).values.length = c.values.length := by
  by_cases h : c.dtype = .objectT
  · cases hp : parseAll parseDate c.values with
    | none => rw [dateCol_objectT_none c h hp]
    | some ws =>
      rw [dateCol_objectT_some c ws h hp]
      exact parseAll_length parseDate c.values ws hp
  · rw [dateCol_of_ne_objectT c h]

theorem stripStep_nrows (D : Dataset) : (stripStep D).nrows = D.nrows := rfl

theorem numericStep_nrows (D : Dataset) : (numericStep D).nrows = D.nrows := rfl

theorem dateStep_nrows (D : Dataset) : (dateStep D).nrows = D.nrows := rfl

theorem wf_stripStep (D : Dataset) (h : D.WF) : (stripStep D).WF := by
  intro c' hc'
  obtain ⟨c, hc, rfl⟩ := List.mem_map.mp hc'
  rw [length_values_stripCol]
  exact h c hc

theorem wf_numericStep (D : Dataset) (h : D.WF) : (numericStep D).WF := by
  intro c' hc'
  obtain ⟨c, hc, rfl⟩ := List.mem_map.mp hc'
  rw [length_values_numericCol]
  exact h c hc

theorem wf_dateStep (D : Dataset) (h : D.WF) : (dateStep D).WF := by
  intro c' hc'
  obtain ⟨c, hc, rfl⟩ := List.mem_map.mp hc'
  rw [length_values_dateCol]
  exact h c hc

/-! Invariants of the cleaned dataframe, used for idempotence. -/

/-- Every object (text) column consists of already-stripped strings. -/
def StripInv (D : Dataset) : Prop :=
  ∀ c ∈ D.cols, c.dtype = .objectT → ∀ v ∈ c.values, ∃ s, v = .str s ∧ pyStrip s = s

/-- Every object column makes the column conversion through `f` fail. -/
def ObjFailInv (f : Value → Option Value) (D : Dataset) : Prop :=
  ∀ c ∈ D.cols, c.dtype = .objectT → parseAll f c.values = none

theorem stripInv_stripStep (D : Dataset) : StripInv (stripStep D) := by
  intro c' hc' hdt v hv
  obtain ⟨c, _, rfl⟩ := List.mem_map.mp hc'
  by_cases h : c.dtype = .objectT
  · rw [stripCol_objectT c h] at hv
    obtain ⟨v0, _, rfl⟩ := List.mem_map.mp hv
    exact ⟨pyStrip (pyStr v0), rfl, pyStrip_idem (pyStr v0)⟩
  · rw [stripCol_of_ne_objectT c h] at hdt
    exact absurd hdt h

theorem stripInv_numericStep (D : Dataset) (h : StripInv D) : StripInv (numericStep D) := by
  intro c' hc' hdt v hv
  obtain ⟨c, hc, rfl⟩ := List.mem_map.mp hc'
  obtain ⟨heq, hobj, -⟩ := numericCol_dtype_objectT c hdt
  rw [heq] at hv
  exact h c hc hobj v hv

theorem stripInv_dateStep (D : Dataset) (h : StripInv D) : StripInv (dateStep D) := by
  intro c' hc' hdt v hv
  obtain ⟨c, hc, rfl⟩ := List.mem_map.mp hc'
  obtain ⟨heq, hobj, -⟩ := dateCol_dtype_objectT c hdt
  rw [heq] at hv
  exact h c hc hobj v hv

theorem mem_cols_getElem? (cs : List Column) (c : Column) (h : c ∈ cs) :
    ∃ j : Nat, cs[j]? = some c := by
  obtain ⟨j, hj⟩ := List.get?_of_mem h
  exact ⟨j, by simpa using hj⟩

theorem stripInv_dedupStep (D : Dataset) (hwf : D.WF) (h : StripInv D) :
    StripInv (dedupStep D) := by
  intro c' hc' hdt v hv
  obtain ⟨j, hj⟩ := mem_cols_getElem? _ c' hc'
  have hj0 := hj
  rw [dedupStep_cols_getElem?] at hj0
  cases hcj : D.cols[j]? with
  | none => rw [hcj] at hj0; exact absurd hj0 (by simp)
  | some c =>
    rw [hcj] at hj0
    have hdt2 : c.dtype = .objectT := by
      have := (dedupStep_name_dtype D j c c' hcj hj).2
      rw [← this]; exact hdt
    have hvin : v ∈ c.values := col_dedupStep_subset D hwf j c c' hcj hj v hv
    exact h c (List.getElem?_mem hcj) hdt2 v hvin

theorem objFailInv_numericStep (D : Dataset) : ObjFailInv parseNum (numericStep D) := by
  intro c' hc' hdt
  obtain ⟨c, _, rfl⟩ := List.mem_map.mp hc'
  obtain ⟨heq, -, hfail⟩ := numericCol_dtype_objectT c hdt
  rw [heq]
  exact hfail

theorem objFailInv_parseNum_dateStep (D : Dataset) (h : ObjFailInv parseNum D) :
    ObjFailInv parseNum (dateStep D) := by
  intro c' hc' hdt
  obtain ⟨c, hc, rfl⟩ := List.mem_map.mp hc'
  obtain ⟨heq, hobj, -⟩ := dateCol_dtype_objectT c hdt
  rw [heq]
  exact h c hc hobj

theorem objFailInv_parseDate_dateStep (D : Dataset) : ObjFailInv parseDate (dateStep D) := by
  intro c' hc' hdt
  obtain ⟨c, _, rfl⟩ := List.mem_map.mp hc'
  obtain ⟨heq, -, hfail⟩ := dateCol_dtype_objectT c hdt
  rw [heq]
  exact hfail

theorem objFailInv_dedupStep (f : Value → Option Value) (D : Dataset) (hwf : D.WF)
    (h : ObjFailInv f D) : ObjFailInv f (dedupStep D) := by
  intro c' hc' hdt
  obtain ⟨j, hj⟩ := mem_cols_getElem? _ c' hc'
  have hj0 := hj
  rw [dedupStep_cols_getElem?] at hj0
  cases hcj : D.cols[j]? with
  | none => rw [hcj] at hj0; exact absurd hj0 (by simp)
  | some c =>
    rw [hcj] at hj0
    have hdt2 : c.dtype = .objectT := by
      have := (dedupStep_name_dtype D j c c' hcj hj).2
      rw [← this]; exact hdt
    obtain ⟨v, hvmem, hvfail⟩ :=
      (parseAll_eq_none_iff f c.values).mp (h c (List.getElem?_mem hcj) hdt2)
    exact (parseAll_eq_none_iff f c'.values).mpr
      ⟨v, mem_col_dedupStep D hwf j c c' hcj hj v hvmem, hvfail⟩

/-! Identity of the cleaning steps on an already-cleaned dataframe. -/

theorem stripStep_eq_self (D : Dataset) (h : StripInv D) : stripStep D = D := by
  have hcols : D.cols.map stripCol = D.cols := by
    refine (List.map_congr_left fun c hc => ?_).trans (List.map_id D.cols)
    by_cases hdt : c.dtype = .objectT
    · rw [stripCol_objectT c hdt]
      have hvals : c.values.map stripVal = c.values := by
        refine (List.map_congr_left fun v hv => ?_).trans (List.map_id c.values)
        obtain ⟨s, rfl, hs⟩ := h c hc hdt v hv
        show Value.str (pyStrip (pyStr (Value.str s))) = Value.str s
        rw [pyStr, hs]
      rw [hvals]
      rfl
    · exact stripCol_of_ne_objectT c hdt
  show { D with cols := D.cols.map stripCol } = D
  rw [hcols]

theorem numericStep_eq_self (D : Dataset) (h : ObjFailInv parseNum D)
    (hnd : ∀ c ∈ D.cols, c.dtype ≠ .dateT) : numericStep D = D := by
  have hcols : D.cols.map numericCol = D.cols := by
    refine (List.map_congr_left fun c hc => ?_).trans (List.map_id D.cols)
    by_cases hdt : c.dtype = .objectT
    · exact numericCol_objectT_none c hdt (h c hc hdt)
    · exact numericCol_of_ne_objectT c hdt (hnd c hc)
  show { D with cols := D.cols.map numericCol } = D
  rw [hcols]

theorem dateStep_eq_self (D : Dataset) (h : ObjFailInv parseDate D) : dateStep D = D := by
  have hcols : D.cols.map dateCol = D.cols := by
    refine (List.map_congr_left fun c hc => ?_).trans (List.map_id D.cols)
    by_cases hdt : c.dtype = .objectT
    · exact dateCol_objectT_none c hdt (h c hc hdt)
    · exact dateCol_of_ne_objectT c hdt
  show { D with cols := D.cols.map dateCol } = D
  rw [hcols]

theorem rowsOf_map_getD (D : Dataset) (hwf : D.WF) (j : Nat) (c : Column)
    (hc : D.cols[j]? = some c) :
    (rowsOf D).map (fun r : List Value => r.getD j .null) = c.values := by
  have hclen : c.values.length = D.nrows := hwf c (List.getElem?_mem hc)
  apply List.ext_getElem?
  intro i
  by_cases hi : i < D.nrows
  · rw [List.getElem?_map, rowsOf_getElem? D i hi]
    have hcv : c.values[i]? = some (c.values.getD i .null) := by
      have hilen : i < c.values.length := by omega
      rw [List.getD_eq_getElem?_getD, List.getElem?_eq_getElem hilen]
      simp [List.getElem?_eq_getElem hilen]
    rw [hcv]
    show some ((rowAt D i).getD j .null) = _
    rw [List.getD_eq_getElem?_getD, rowAt_getElem?, hc]
    rfl
  · rw [List.getElem?_eq_none (by simp [length_rowsOf]; omega :
      ((rowsOf D).map fun r : List Value => r.getD j .null).length ≤ i)]
    rw [List.getElem?_eq_none (by omega : c.values.length ≤ i)]

theorem dedupStep_eq_self (D : Dataset) (hwf : D.WF) (hnd : (rowsOf D).Nodup) :
    dedupStep D = D := by
  have hdd : dropDuplicates (rowsOf D) = rowsOf D := dropDuplicates_of_nodup _ hnd
  have hnrows : (dedupStep D).nrows = D.nrows := by
    rw [dedupStep_nrows, hdd, length_rowsOf]
  have hcols : (dedupStep D).cols = D.cols := by
    apply List.ext_getElem?
    intro j
    rw [dedupStep_cols_getElem?, hdd]
    cases hcj : D.cols[j]? with
    | none => rfl
    | some c =>
      show some _ = some c
      rw [rowsOf_map_getD D hwf j c hcj]
  calc dedupStep D = ⟨(dedupStep D).nrows, (dedupStep D).cols⟩ := rfl
    _ = ⟨D.nrows, D.cols⟩ := by rw [hnrows, hcols]
    _ = D := rfl

/-! String helper lemmas for the generation-client contract. -/

theorem append_ne_empty_left (s t : String) (h : s ≠ "") : s ++ t ≠ "" := by
  intro he
  apply h
  have hd := congrArg String.data he
  rw [String.data_append] at hd
  have : s.data = [] := (List.append_eq_nil.mp hd).1
  cases s
  cases this
  rfl

theorem containsStr_of_parts (s n : String) (pre post : List Char)
    (h : pre ++ n.data ++ post = s.data) : ContainsStr s n := ⟨pre, post, h⟩

/-! Lemmas about the seeded sampler. -/

theorem cons_get_eraseIdx_perm (l : List α) :
    ∀ (i : Nat) (h : i < l.length), List.Perm (l.get ⟨i, h⟩ :: l.eraseIdx i) l := by
  induction l with
  | nil => intro i h; simp at h
  | cons a t ih =>
    intro i h
    cases i with
    | zero => exact List.Perm.refl (a :: t)
    | succ i =>
      have hi : i < t.length := by simpa using h
      have hswap : List.Perm (t.get ⟨i, hi⟩ :: a :: t.eraseIdx i)
          (a :: t.get ⟨i, hi⟩ :: t.eraseIdx i) :=
        List.Perm.swap a (t.get ⟨i, hi⟩) (t.eraseIdx i)
      exact hswap.trans ((ih i hi).cons a)

theorem fyAux_perm : ∀ (fuel st : Nat) (l : List Nat), fuel = l.length →
    List.Perm (fyAux fuel st l) l := by
  intro fuel
  induction fuel with
  | zero =>
    intro st l h
    have : l = [] := List.length_eq_zero.mp h.symm
    rw [this]
    exact List.Perm.refl _
  | succ n ih =>
    intro st l h
    cases l with
    | nil => simp at h
    | cons a t =>
      have hi : st % (a :: t).length < (a :: t).length := Nat.mod_lt _ (by simp)
      show List.Perm ((a :: t).getD (st % (a :: t).length) 0 ::
        fyAux n (lcg st) ((a :: t).eraseIdx (st % (a :: t).length))) (a :: t)
      have hget : (a :: t).getD (st % (a :: t).length) 0 =
          (a :: t).get ⟨st % (a :: t).length, hi⟩ := by
        rw [List.getD_eq_getElem?_getD, List.getElem?_eq_getElem hi]
        rfl
      have hlen : n = ((a :: t).eraseIdx (st % (a :: t).length)).length := by
        have h2 : ((a :: t).eraseIdx (st % (a :: t).length)).length + 1 = n + 1 := by
          rw [List.length_eraseIdx_add_one hi, h]
        omega
      rw [hget]
      exact ((ih (lcg st) _ hlen).cons _).trans (cons_get_eraseIdx_perm (a :: t) _ hi)

theorem samplePerm_perm (n : Nat) : List.Perm (samplePerm n) (List.range n) :=
  fyAux_perm n 0 (List.range n) (by simp)

theorem length_samplePerm (n : Nat) : (samplePerm n).length = n :=
  (samplePerm_perm n).length_eq.trans (List.length_range n)

theorem nodup_samplePerm (n : Nat) : (samplePerm n).Nodup :=
  (List.nodup_range n).perm (samplePerm_perm n).symm

theorem mem_samplePerm (n i : Nat) (h : i ∈ samplePerm n) : i < n :=
  List.mem_range.mp ((samplePerm_perm n).subset h)

theorem sampleN_le (n : Nat) : sampleN n ≤ n := by
  rw [sampleN]
  split <;> omega

theorem sampleN_eq_min (n : Nat) : sampleN n = min 50 n := by
  rw [sampleN]
  split <;> omega

theorem length_sampleIdx (n k : Nat) (hk : k ≤ n) : (sampleIdx n k).length = k := by
  rw [sampleIdx, List.length_take, length_samplePerm]
  omega

theorem nodup_sampleIdx (n k : Nat) : (sampleIdx n k).Nodup :=
  (nodup_samplePerm n).sublist (List.take_sublist k (samplePerm n))

theorem mem_sampleIdx (n k i : Nat) (h : i ∈ sampleIdx n k) : i < n :=
  mem_samplePerm n i ((List.take_sublist k (samplePerm n)).subset h)

/-! Dtype/value coherence, as pandas maintains it for real dataframes. -/

/-- Coherence of a declared dtype with a stored value: an `int64` column
holds integers, a `float64` column holds floats or `NaN`, a
`datetime64` column holds timestamps or `NaT`, and an `object` column
may hold anything. -/
def dtypeOK : Dtype → Value → Bool
  | .intT, .int _ => true
  | .intT, _ => false
  | .floatT, .float _ => true
  | .floatT, .null => true
  | .floatT, _ => false
  | .dateT, .date _ => true
  | .dateT, .null => true
  | .dateT, _ => false
  | .objectT, _ => true

/-- A column whose values are coherent with its declared dtype. -/
def Column.Typed (c : Column) : Prop := ∀ v ∈ c.values, dtypeOK c.dtype v = true

instance (c : Column) : Decidable c.Typed :=
  inferInstanceAs (Decidable (∀ v ∈ c.values, dtypeOK c.dtype v = true))

theorem parseAll_id_of (f : Value → Option Value) (vs : List Value)
    (h : ∀ v ∈ vs, f v = some v) : parseAll f vs = some vs := by
  induction vs with
  | nil => rfl
  | cons v t ih =>
    rw [parseAll, h v (List.mem_cons_self v t),
      ih fun u hu => h u (List.mem_cons_of_mem v hu)]

/-- C2: in the cleaner's numeric-coercion step, a column with any
value that fails numeric parsing is left completely unchanged, and a
column whose values all parse becomes numeric (integer or float) with
its values replaced by the parsed numbers.  (Input columns come from
`pd.read_csv`, so they are dtype-coherent and not datetime-typed.) -/
theorem claim_C2_numeric_all_or_nothing (c : Column) (hdt : c.dtype ≠ .dateT)
    (ht : c.Typed) :
    ((∃ v ∈ c.values, parseNum v = none) → numericCol c = c) ∧
    ((∀ v ∈ c.values, (parseNum v).isSome) →
      isNumericDtype (numericCol c).dtype = true ∧
      parseAll parseNum c.values = some (numericCol c).values) := by
  constructor
  · rintro ⟨v, hv, hfv⟩
    by_cases hobj : c.dtype = .objectT
    · exact numericCol_objectT_none c hobj ((parseAll_eq_none_iff _ _).mpr ⟨v, hv, hfv⟩)
    · exact numericCol_of_ne_objectT c hobj hdt
  · intro hall
    cases hdtc : c.dtype with
    | dateT => exact absurd hdtc hdt
    | objectT =>
      obtain ⟨ws, hws⟩ := parseAll_isSome parseNum c.values hall
      rw [numericCol_objectT_some c ws hdtc hws]
      exact ⟨outDtype_numeric ws, by rw [hws]⟩
    | intT =>
      have hne : c.dtype ≠ .objectT := by rw [hdtc]; intro hcon; cases hcon
      have hid : ∀ v ∈ c.values, parseNum v = some v := by
        intro v hv
        have := ht v hv
        rw [hdtc] at this
        cases v <;> simp_all [dtypeOK, parseNum]
      rw [numericCol_of_ne_objectT c hne hdt]
      refine ⟨by rw [hdtc]; rfl, parseAll_id_of parseNum c.values hid⟩
    | floatT =>
      have hne : c.dtype ≠ .objectT := by rw [hdtc]; intro hcon; cases hcon
      have hid : ∀ v ∈ c.values, parseNum v = some v := by
        intro v hv
        have := ht v hv
        rw [hdtc] at this
        cases v <;> simp_all [dtypeOK, parseNum]
      rw [numericCol_of_ne_objectT c hne hdt]
      refine ⟨by rw [hdtc]; rfl, parseAll_id_of parseNum c.values hid⟩

/-- The "score" column of the spec's example: `["1", "2", "abc"]`. -/
def scoreColumn : Column :=
  { name := "score", dtype := .objectT, values := [.str "1", .str "2", .str "abc"] }

/-- Witness for C2: on the column `["1", "2", "abc"]` the value
`"abc"` fails to parse, so the numeric-coercion step leaves the column
unchanged (it stays text with the original values). -/
theorem claim_C2_witness :
    scoreColumn.dtype ≠ .dateT ∧ scoreColumn.Typed ∧ numericCol scoreColumn = scoreColumn :=
  ⟨by decide, by decide,
    (claim_C2_numeric_all_or_nothing scoreColumn (by decide) (by decide)).1
      ⟨.str "abc", by decide, by decide⟩⟩

/-- C5: the generation client always returns a non-empty string and
never throws: a missing binary yields an installation hint, a timeout
mentions the timeout duration, a non-zero exit includes the captured
diagnostics or a "no details" fallback, and a clean exit with empty
output channels yields the literal "no response" message. -/
theorem claim_C5_generation_client (p m : String) (t : Nat) (o : RunOutcome) :
    query_ollama p m t o ≠ "" ∧
    (o = .fileNotFound →
      ContainsStr (query_ollama p m t o) "Install from https://ollama.com") ∧
    (o = .timedOut → ContainsStr (query_ollama p m t o) (toString t ++ "s")) ∧
    (∀ rc out err, o = .finished rc out err → rc ≠ 0 →
      query_ollama p m t o =
        "ERROR: ollama run failed (code " ++ toString rc ++ "). Details: " ++
          (if pyStrip err = "" then "No error details" else pyStrip err)) ∧
    (∀ rc out err, o = .finished rc out err → rc = 0 → pyStrip out = "" →
      pyStrip err = "" → query_ollama p m t o = "No response from model.") := by
  cases o with
  | fileNotFound =>
    refine ⟨?_, fun _ => ?_, ?_, ?_, ?_⟩
    · show "ERROR: 'ollama' CLI not found. Install from https://ollama.com and ensure it is on PATH." ≠ ""
      decide
    · show ContainsStr
        "ERROR: 'ollama' CLI not found. Install from https://ollama.com and ensure it is on PATH."
        "Install from https://ollama.com"
      decide
    · intro h; simp at h
    · intro rc out err h; simp at h
    · intro rc out err h; simp at h
  | timedOut =>
    refine ⟨?_, ?_, fun _ => ?_, ?_, ?_⟩
    · show "ERROR: LLM call timed out after " ++ toString t ++ "s" ++
        ". Consider pulling the model first with 'ollama pull " ++ m ++ "'." ≠ ""
      exact append_ne_empty_left _ _ (append_ne_empty_left _ _ (append_ne_empty_left _ _
        (append_ne_empty_left _ _ (append_ne_empty_left _ _ (by decide)))))
    · intro h; simp at h
    · refine containsStr_of_parts _ _ ("ERROR: LLM call timed out after ").data
        ((". Consider pulling the model first with 'ollama pull " ++ m ++ "'.").data) ?_
      show _ = ("ERROR: LLM call timed out after " ++ toString t ++ "s" ++
        ". Consider pulling the model first with 'ollama pull " ++ m ++ "'.").data
      simp [String.data_append]
    · intro rc out err h; simp at h
    · intro rc out err h; simp at h
  | finished rc out err =>
    refine ⟨?_, ?_, ?_, ?_, ?_⟩
    · show (if rc ≠ 0 then _ else _) ≠ ""
      by_cases hrc : rc ≠ 0
      · rw [if_pos hrc]
        exact append_ne_empty_left _ _ (append_ne_empty_left _ _
          (append_ne_empty_left _ _ (by decide)))
      · rw [if_neg hrc]
        by_cases hso : pyStrip out ≠ ""
        · rw [if_pos hso]; exact hso
        · rw [if_neg hso]
          by_cases hse : pyStrip err ≠ ""
          · rw [if_pos hse]; exact hse
          · rw [if_neg hse]; decide
    · intro h; simp at h
    · intro h; simp at h
    · intro rc' out' err' h hne
      injection h with e1 e2 e3
      subst e1; subst e2; subst e3
      show (if rc ≠ 0 then _ else _) = _
      rw [if_pos hne]
    · intro rc' out' err' h h0 hout herr
      injection h with e1 e2 e3
      subst e1; subst e2; subst e3
      show (if rc ≠ 0 then _ else _) = _
      have hrcn : ¬ (rc ≠ 0) := fun hc => hc h0
      rw [if_neg hrcn, if_neg (fun hc : pyStrip out ≠ "" => hc hout),
        if_neg (fun hc : pyStrip err ≠ "" => hc herr)]

/-- Witness for C5: a concrete timed-out call returns a non-empty
string that mentions the 7-second timeout. -/
theorem claim_C5_witness :
    query_ollama "hi" "gemma:2b" 7 .timedOut ≠ "" ∧
    ContainsStr (query_ollama "hi" "gemma:2b" 7 .timedOut) "7s" := by
  have h := claim_C5_generation_client "hi" "gemma:2b" 7 .timedOut
  exact ⟨h.1, h.2.2.1 rfl⟩

/-- C6: the sampler returns exactly `min 50 row_count` rows, selected
without replacement (distinct in-range row indices) by a deterministic
seeded choice; on an empty dataframe it returns the empty head with the
same column structure instead of failing. -/
theorem claim_C6_sampler (D : Dataset) :
    (analyzeSample D).nrows = min 50 D.nrows ∧
    (sampleIdx D.nrows (sampleN D.nrows)).Nodup ∧
    (∀ i ∈ sampleIdx D.nrows (sampleN D.nrows), i < D.nrows) ∧
    (analyzeSample D).cols.map (fun c : Column => (c.name, c.dtype)) =
      D.cols.map (fun c : Column => (c.name, c.dtype)) ∧
    (D.nrows = 0 → analyzeSample D = headZero D) := by
  refine ⟨?_, nodup_sampleIdx _ _, fun i hi => mem_sampleIdx _ _ i hi, ?_, ?_⟩
  · rw [analyzeSample]
    by_cases h : sampleN D.nrows > 0
    · rw [if_pos h]
      show (sampleIdx D.nrows (sampleN D.nrows)).length = min 50 D.nrows
      rw [length_sampleIdx _ _ (sampleN_le D.nrows), sampleN_eq_min]
    · rw [if_neg h]
      show (0 : Nat) = min 50 D.nrows
      have := sampleN_eq_min D.nrows
      omega
  · rw [analyzeSample]
    by_cases h : sampleN D.nrows > 0
    · rw [if_pos h]
      show (D.cols.map _).map _ = _
      rw [List.map_map]
      rfl
    · rw [if_neg h]
      show (D.cols.map _).map _ = _
      rw [List.map_map]
      rfl
  · intro h
    rw [analyzeSample, if_neg]
    rw [sampleN, h]
    simp

/-- An empty single-column dataframe. -/
def emptyDf : Dataset :=
  { nrows := 0, cols := [{ name := "a", dtype := .objectT, values := [] }] }

/-- Witness for C6: on a concrete empty dataframe the sampler returns
zero rows and the empty head with the same columns. -/
theorem claim_C6_witness :
    (analyzeSample emptyDf).nrows = min 50 0 ∧ analyzeSample emptyDf = headZero emptyDf := by
  have h := claim_C6_sampler emptyDf
  exact ⟨h.1, h.2.2.2.2 rfl⟩

/-- C8: with no previously analyzed dataframe the cleaner returns the
explicit no-artifact result (`None`) instead of failing, and with a
dataframe present it always produces an artifact. -/
theorem claim_C8_missing_state :
    (∀ sn, generate_cleaned_csv none sn = none) ∧
    (∀ d sn, (generate_cleaned_csv (some d) sn).isSome = true) :=
  ⟨fun _ => rfl, fun _ _ => rfl⟩

/-- C9: the cleaning pass never mutates the input dataframe: after the
copy, every statement of `generate_cleaned_csv` rewrites only the
working copy, so the caller's dataframe is unchanged at every step and
the final working copy is the cleaned dataset. -/
theorem claim_C9_no_mutation (df : Dataset) :
    (cleanInit df).df = df ∧
    (stepStrip (cleanInit df)).df = df ∧
    (stepNumeric (stepStrip (cleanInit df))).df = df ∧
    (stepDate (stepNumeric (stepStrip (cleanInit df)))).df = df ∧
    (cleanRunState df).df = df ∧
    (cleanRunState df).cleaned = cleanCore df :=
  ⟨rfl, rfl, rfl, rfl, rfl, rfl⟩

/-- A text column holding an ISO date string and a missing value, and
the dataframe containing it. -/
def dateOnlyColumn : Column :=
  { name := "d", dtype := .objectT, values := [.str "2020-01-01", .null] }

/-- Dataframe whose only column is date-coerced by the first pass. -/
def dateOnlyDf : Dataset := { nrows := 2, cols := [dateOnlyColumn] }

/-- The date column of `dateOnlyDf` after one cleaning pass: coerced to
datetime with the null as `NaT`. -/
def dateOnlyCleanedOnce : Column :=
  { name := "d", dtype := .dateT, values := [.date 20200101, .null] }

/-- The same column after a second cleaning pass: the numeric-coercion
step views the datetime column as int64, giving epoch-nanoseconds and
the `iNaT` sentinel. -/
def dateOnlyCleanedTwice : Column :=
  { name := "d", dtype := .intT,
    values := [.int 1577836800000000000, .int (-9223372036854775808)] }

/-- C3 counterexample: cleaning is not idempotent.  The text column
`["2020-01-01", NaN]` is date-coerced by the first pass; the second
pass's `pd.to_numeric` (pandas 1.x–2.x) converts the datetime column to
int64 epoch-nanoseconds, so `clean(clean(D))` has a different column
type and different values than `clean(D)`. -/
theorem claim_C3_counterexample :
    getCol (cleanCore dateOnlyDf) "d" = some dateOnlyCleanedOnce ∧
    getCol (cleanCore (cleanCore dateOnlyDf)) "d" = some dateOnlyCleanedTwice ∧
    Dtype.dateT ≠ Dtype.intT ∧
    cleanCore (cleanCore dateOnlyDf) ≠ cleanCore dateOnlyDf := by decide

/-- C3 amended: the cleaning transformation is idempotent on every
dataset whose cleaned output contains no date/time column — then
`clean(clean(D)) = clean(D)` as full dataset equality, so the rows and
the column types agree.  (When `clean(D)` contains a date-coerced
column, the second pass retypes it to integer epoch-nanoseconds, which
is the counterexample.) -/
theorem claim_C3_amended (D : Dataset) (hwf : D.WF) (_hs : D.Scalar)
    (hnodate : ∀ c ∈ (cleanCore D).cols, c.dtype ≠ .dateT) :
    cleanCore (cleanCore D) = cleanCore D := by
  have hwfX : (dateStep (numericStep (stripStep D))).WF :=
    wf_dateStep _ (wf_numericStep _ (wf_stripStep _ hwf))
  set X := dateStep (numericStep (stripStep D)) with hXdef
  set Y := dedupStep X with hYdef
  have hwfY : Y.WF := wf_dedupStep X
  have hstripY : StripInv Y :=
    stripInv_dedupStep X hwfX
      (stripInv_dateStep _ (stripInv_numericStep _ (stripInv_stripStep D)))
  have hnumY : ObjFailInv parseNum Y :=
    objFailInv_dedupStep parseNum X hwfX
      (objFailInv_parseNum_dateStep _ (objFailInv_numericStep _))
  have hdateY : ObjFailInv parseDate Y :=
    objFailInv_dedupStep parseDate X hwfX (objFailInv_parseDate_dateStep _)
  have hnodateY : ∀ c ∈ Y.cols, c.dtype ≠ .dateT := hnodate
  have hnd : (rowsOf Y).Nodup := by
    rw [hYdef, rowsOf_dedupStep]
    exact nodup_dropDuplicates _
  show dedupStep (dateStep (numericStep (stripStep Y))) = Y
  rw [stripStep_eq_self Y hstripY, numericStep_eq_self Y hnumY hnodateY,
    dateStep_eq_self Y hdateY, dedupStep_eq_self Y hwfY hnd]

/-- A dataframe with trimmed text, an all-numeric column with a missing
value and a duplicate row pair — but nothing date-like, so its cleaned
output has no datetime column. -/
def mixedNoDateDf : Dataset :=
  { nrows := 3,
    cols :=
      [ { name := "id", dtype := .intT, values := [.int 1, .int 2, .int 2] },
        { name := "nm", dtype := .objectT, values := [.str " a ", .str "b", .str "b"] },
        { name := "sc", dtype := .objectT, values := [.str "1", .null, .null] } ] }

/-- Witness for C3 (amended): idempotence evaluated on a concrete
dataframe with trimmed text, a numeric-coerced column with a missing
value and a removed duplicate row, whose cleaned output has no
date/time column. -/
theorem claim_C3_witness :
    mixedNoDateDf.WF ∧ mixedNoDateDf.Scalar ∧
    (∀ c ∈ (cleanCore mixedNoDateDf).cols, c.dtype ≠ .dateT) ∧
    cleanCore (cleanCore mixedNoDateDf) = cleanCore mixedNoDateDf :=
  ⟨by decide, by decide, by decide,
    claim_C3_amended mixedNoDateDf (by decide) (by decide) (by decide)⟩

/-- C4: cleaning never increases the row count, its output rows are
pairwise distinct, the output rows are exactly the keep-first
deduplication of the pre-dedup stage's rows and a sublist of them
(order preserved), and the deduplication keeps the first occurrence of
each row and filters its later duplicates. -/
theorem claim_C4_dedup_postconditions (D : Dataset) (_hs : D.Scalar) :
    (cleanCore D).nrows ≤ D.nrows ∧
    (rowsOf (cleanCore D)).Nodup ∧
    rowsOf (cleanCore D) = dropDuplicates (rowsOf (dateStep (numericStep (stripStep D)))) ∧
    List.Sublist (rowsOf (cleanCore D)) (rowsOf (dateStep (numericStep (stripStep D)))) ∧
    (∀ (r : List Value) (l : List (List Value)),
      dropDuplicates (r :: l) = r :: dropDuplicates (l.filter fun x => x ≠ r)) := by
  refine ⟨?_, ?_, ?_, ?_, fun r l => dropDuplicates_cons r l⟩
  · show (dropDuplicates (rowsOf (dateStep (numericStep (stripStep D))))).length ≤ D.nrows
    have h1 := length_dropDuplicates_le (rowsOf (dateStep (numericStep (stripStep D))))
    rw [length_rowsOf] at h1
    exact h1
  · rw [show cleanCore D = dedupStep (dateStep (numericStep (stripStep D))) from rfl,
      rowsOf_dedupStep]
    exact nodup_dropDuplicates _
  · rw [show cleanCore D = dedupStep (dateStep (numericStep (stripStep D))) from rfl,
      rowsOf_dedupStep]
  · rw [show cleanCore D = dedupStep (dateStep (numericStep (stripStep D))) from rfl,
      rowsOf_dedupStep]
    exact dropDuplicates_sublist _

/-- Witness for C4: on the duplicated two-row example the cleaned
output has fewer rows than the input and no duplicate rows. -/
theorem claim_C4_witness :
    exampleDf.Scalar ∧ (cleanCore exampleDf).nrows ≤ exampleDf.nrows ∧
    (rowsOf (cleanCore exampleDf)).Nodup := by
  have h := claim_C4_dedup_postconditions exampleDf (by decide)
  exact ⟨by decide, h.1, h.2.1⟩

/-- The cleaned output the code actually produces for the two-row
example: one row, name trimmed, amount left as text. -/
def cleanedExampleDf : Dataset :=
  { nrows := 1,
    cols :=
      [ { name := "id", dtype := .intT, values := [.int 1] },
        { name := "name", dtype := .objectT, values := [.str "Alice"] },
        { name := "amount", dtype := .objectT, values := [.str "$10.00"] } ] }

/-- C1 counterexample: the claim asserts the cleaned amount column is
numeric with value 10.00; in fact `pd.to_numeric` cannot parse the
currency string, so the cleaned amount column has object (text) dtype
and still holds the string `"$10.00"`. -/
theorem claim_C1_counterexample :
    getCol (cleanCore exampleDf) "amount" =
      some { name := "amount", dtype := .objectT, values := [.str "$10.00"] } ∧
    isNumericDtype .objectT = false ∧
    parseNum (.str "$10.00") = none := by decide

/-- C1 amended: on the duplicated row `{id:1, name:" Alice ",
amount:"$10.00"}` the baseline reports duplicate rows, and cleaning
produces exactly one row with the name trimmed to `"Alice"` and the
amount left as the text `"$10.00"` (not coerced to a number). -/
theorem claim_C1_amended :
    baselineReport exampleDf = "Pandas baseline detected: Duplicate rows found" ∧
    cleanCore exampleDf = cleanedExampleDf := by decide

/-- A column holding a non-scalar (unhashable) value, and a dataframe
containing it. -/
def unhashColumn : Column := { name := "u", dtype := .objectT, values := [.unhashable 0] }

/-- Dataframe whose only column defeats the distinct count. -/
def badDf : Dataset := { nrows := 1, cols := [unhashColumn] }

/-- C7 counterexample: when the distinct count raises, the summary
renders the integer sentinel `-1` in the `unique=` field — the literal
string `"unknown"` appears nowhere in the summary, contrary to the
claim's sentinel. -/
theorem claim_C7_counterexample :
    nuniqueE unhashColumn = none ∧
    uniqueCountOf unhashColumn = -1 ∧
    ContainsStr (build_dataset_summary badDf) "unique=-1" ∧
    ¬ ContainsStr (build_dataset_summary badDf) "unknown" := by decide

/-- C7 amended: the `unique` field of each summary line is the exact
distinct count when counting succeeds and the integer sentinel `-1`
when counting raises; the failure is contained to that column — the
summary still renders its line (containing the `unique=` field) for
every column of the dataframe. -/
theorem claim_C7_amended (D : Dataset) :
    ∀ c ∈ D.cols,
      (∀ k : Nat, nuniqueE c = some k → uniqueCountOf c = (k : Int)) ∧
      (nuniqueE c = none → uniqueCountOf c = -1) ∧
      colLine c ∈ summaryLines D ∧
      ContainsStr (colLine c) ("unique=" ++ toString (uniqueCountOf c)) ∧
      (summaryLines D).length = D.cols.length + 1 := by
  intro c hc
  refine ⟨?_, ?_, ?_, ?_, ?_⟩
  · intro k hk
    simp [uniqueCountOf, hk]
  · intro hk
    simp [uniqueCountOf, hk]
  · exact List.mem_cons_of_mem _ (List.mem_map.mpr ⟨c, hc, rfl⟩)
  · refine containsStr_of_parts _ _
      ("- " ++ c.name ++ " | dtype=" ++ dtypeName c.dtype ++
        ", non_null=" ++ toString (nonNullCount c) ++
        ", nulls=" ++ toString (nullCount c) ++ ", ").data
      ((numericStats c ++ "; examples: " ++ examplesPreview c).data) ?_
    show _ = (colLine c).data
    rw [colLine]
    simp [String.data_append]
  · simp [summaryLines]

/-- Witness for C7: on the unhashable column the count raises, the
sentinel is `-1`, and the summary still has the column's line. -/
theorem claim_C7_witness :
    unhashColumn ∈ badDf.cols ∧ uniqueCountOf unhashColumn = -1 ∧
    colLine unhashColumn ∈ summaryLines badDf := by
  have h := claim_C7_amended badDf unhashColumn (by decide)
  exact ⟨by decide, h.2.1 (by decide), h.2.2.1⟩

/-- A text column containing an ISO date string and a missing value:
after stripping, the missing value is the string "nan", which the date
parser maps to `NaT`. -/
def dateNullColumn : Column :=
  { name := "d", dtype := .objectT, values := [.str "2020-01-01", .null] }

/-- Dataframe containing the date-and-null text column. -/
def dateNullDf : Dataset := { nrows := 2, cols := [dateNullColumn] }

/-- C10 counterexample: this text column contains a null and is not
coerced to a numeric type, yet the cleaned output contains no `"nan"`
string — the column is date-coerced and the null becomes `NaT`, so the
claim's conclusion fails at this input. -/
theorem claim_C10_counterexample :
    Value.null ∈ dateNullColumn.values ∧
    getCol (cleanCore dateNullDf) "d" =
      some { name := "d", dtype := .dateT, values := [.date 20200101, .null] } ∧
    isNumericDtype .dateT = false ∧
    Value.str "nan" ∉ [Value.date 20200101, Value.null] := by decide

/-- C10 amended: the strip step renders a missing value in a text
column as the literal string "nan"; consequently every text column that
contains a null and is not subsequently coerced to a numeric or
date/time type (it is still text-typed in the output) contains the
string "nan" in the cleaned output. -/
theorem claim_C10_amended (D : Dataset) (hwf : D.WF) (_hs : D.Scalar) :
    stripVal Value.null = Value.str "nan" ∧
    ∀ (j : Nat) (c c' : Column), D.cols[j]? = some c → (cleanCore D).cols[j]? = some c' →
      c.dtype = .objectT → Value.null ∈ c.values → c'.dtype = .objectT →
      Value.str "nan" ∈ c'.values := by
  refine ⟨rfl, ?_⟩
  intro j c c' hc hc' hobj hnull hobj'
  have h1 : (stripStep D).cols[j]? = some (stripCol c) := by
    show (D.cols.map stripCol)[j]? = some (stripCol c)
    rw [List.getElem?_map, hc]
    rfl
  have h2 : (numericStep (stripStep D)).cols[j]? = some (numericCol (stripCol c)) := by
    show ((stripStep D).cols.map numericCol)[j]? = _
    rw [List.getElem?_map, h1]
    rfl
  have h3 : (dateStep (numericStep (stripStep D))).cols[j]? =
      some (dateCol (numericCol (stripCol c))) := by
    show ((numericStep (stripStep D)).cols.map dateCol)[j]? = _
    rw [List.getElem?_map, h2]
    rfl
  have hwfX : (dateStep (numericStep (stripStep D))).WF :=
    wf_dateStep _ (wf_numericStep _ (wf_stripStep _ hwf))
  have hc'2 : (dedupStep (dateStep (numericStep (stripStep D)))).cols[j]? = some c' := hc'
  have hdt3 : (dateCol (numericCol (stripCol c))).dtype = .objectT := by
    have := (dedupStep_name_dtype _ j _ c' h3 hc'2).2
    rw [← this]
    exact hobj'
  obtain ⟨hdateid, hnobj, -⟩ := dateCol_dtype_objectT _ hdt3
  obtain ⟨hnumid, -, -⟩ := numericCol_dtype_objectT _ hnobj
  have hX3col : dateCol (numericCol (stripCol c)) = stripCol c := by
    rw [hdateid, hnumid]
  have hnanmem : Value.str "nan" ∈ (stripCol c).values := by
    rw [stripCol_objectT c hobj]
    exact List.mem_map.mpr ⟨.null, hnull, rfl⟩
  have h3' : (dateStep (numericStep (stripStep D))).cols[j]? = some (stripCol c) := by
    rw [h3, hX3col]
  exact mem_col_dedupStep _ hwfX j (stripCol c) c' h3' hc'2 _ hnanmem

/-- A text column with an unparseable string and a missing value, which
stays text through the whole cleaning pass. -/
def textNullColumn : Column :=
  { name := "t", dtype := .objectT, values := [.str "abc", .null] }

/-- The same column after cleaning: still text, null rendered "nan". -/
def textNullCleanedColumn : Column :=
  { name := "t", dtype := .objectT, values := [.str "abc", .str "nan"] }

/-- Dataframe containing the text-and-null column. -/
def textNullDf : Dataset := { nrows := 2, cols := [textNullColumn] }

/-- Witness for C10: the text column `["abc", NaN]` stays text and its
cleaned output holds the literal string "nan" for the missing value. -/
theorem claim_C10_witness :
    textNullDf.WF ∧ textNullDf.Scalar ∧
    Value.str "nan" ∈ textNullCleanedColumn.values :=
  ⟨by decide, by decide,
    (claim_C10_amended textNullDf (by decide) (by decide)).2 0
      textNullColumn textNullCleanedColumn
      (by decide) (by decide) (by decide) (by decide) (by decide)⟩

end LlmClean
